import Mathlib

/-!
# The three HTTP handlers of `api/index.go` (package `handler`)

`Handler()` registers three closures on the default mux: the table listing on `/`,
the post listing on `/api/posts` and the post creation on `/api/posts/create`.
Each closure is embedded as a function that takes the response writer, the request
and the database connection and returns the writer and the connection it leaves
behind.  Start-up (environment, connect, ping, listen) and the routing of the mux are
not part of the embedding.

Library behaviour the closures rely on:

* `net/http`.  The response writer keeps a header map.  The first `WriteHeader` fixes
  the status code and the header fields that are sent; later calls of `WriteHeader` are
  ignored; a `Write` before any `WriteHeader` implies `WriteHeader(200)`.  The function
  `http.Error` sets the plain-text headers in the map, calls `WriteHeader(code)` and
  prints the message and a newline.  The body of a writer is what the handler has
  written; what the server adds or drops on the wire (content sniffing, `Date`,
  `Content-Length`, the body of an answer to HEAD) is not modelled.
* `database/sql`.  `Query` fails or delivers rows, `Scan` on a row fails or fills its
  destinations, `QueryRow(...).Scan` fails or fills the id.  These outcomes are inputs.
  The statements sent are recorded next to the server state.
* `encoding/json`.  The result of `Decode` on the request body is an input (a decoder
  for `Post` is given further down and used in the examples).  `Encode` marshals the
  value, appends a newline and writes it; marshalling a `Post` or a `[]Post` cannot
  fail, so `Encode` returns an error exactly when that write does, and whether it does
  is an input.  Writes whose result a closure discards (`Fprintf`, `Fprintln`) are
  taken to succeed.

Errors are represented by their `Error()` text, strings by their Unicode characters
(a Go string may hold bytes that are not UTF-8; the encoder writes those as U+FFFD).
The JSON texts follow `encoding/json` as of Go 1.22.
-/

namespace Handler

/-! ## Data model -/

/-- The record `Post` with its three JSON fields `id`, `title`, `content`. -/
structure Post where
  ID : Int
  Title : String
  Content : String
deriving DecidableEq

/-- Constants of `net/http` used by the handlers. -/
def MethodGet : String := "GET"

def MethodPost : String := "POST"

def StatusOK : Nat := 200

def StatusCreated : Nat := 201

def StatusBadRequest : Nat := 400

def StatusMethodNotAllowed : Nat := 405

def StatusInternalServerError : Nat := 500

/-- The part of `*http.Request` a handler can look at. -/
structure Request where
  Method : String
  Path : String
  Body : String
deriving DecidableEq

/-! ## Response writer -/

/-- A header map with one value per key, in insertion order. -/
abbrev Header := List (String × String)

def Header.Get (h : Header) (k : String) : Option String :=
  (h.find? (fun p => p.1 == k)).map (fun p => p.2)

def Header.Del (h : Header) (k : String) : Header :=
  h.filter (fun p => p.1 != k)

def Header.Set (h : Header) (k v : String) : Header :=
  h.Del k ++ [(k, v)]

/-- State of an `http.ResponseWriter`: `header` is the map returned by `w.Header()`,
`status` and `sent` are the status code and header fields fixed by the first
`WriteHeader`, `body` collects the bytes written. -/
structure ResponseWriter where
  header : Header
  wroteHeader : Bool
  status : Nat
  sent : Header
  body : String
deriving DecidableEq

namespace ResponseWriter

/-- The writer the server hands to a handler. -/
def fresh : ResponseWriter :=
  { header := [], wroteHeader := false, status := 0, sent := [], body := "" }

/-- The call `w.Header().Set(k, v)`. -/
def SetHeader (w : ResponseWriter) (k v : String) : ResponseWriter :=
  { w with header := w.header.Set k v }

/-- The call `w.Header().Del(k)`. -/
def DelHeader (w : ResponseWriter) (k : String) : ResponseWriter :=
  { w with header := w.header.Del k }

/-- The call `w.WriteHeader(code)`: only the first call has an effect. -/
def WriteHeader (w : ResponseWriter) (code : Nat) : ResponseWriter :=
  if w.wroteHeader then w
  else { w with wroteHeader := true, status := code, sent := w.header }

/-- The call `w.Write(s)`: sends the header with status 200 if none was sent yet. -/
def Write (w : ResponseWriter) (s : String) : ResponseWriter :=
  let w1 := if w.wroteHeader then w else w.WriteHeader StatusOK
  { w1 with body := w1.body ++ s }

end ResponseWriter

/-- The function `http.Error(w, error, code)`. -/
def Error (w : ResponseWriter) (error : String) (code : Nat) : ResponseWriter :=
  let w1 := w.DelHeader "Content-Length"
  let w2 := w1.SetHeader "Content-Type" "text/plain; charset=utf-8"
  let w3 := w2.SetHeader "X-Content-Type-Options" "nosniff"
  let w4 := w3.WriteHeader code
  w4.Write (error ++ "\n")

/-! ## Database handle -/

/-- A row delivered by the driver.  What `Scan` returns depends on the destinations
it is given: one string (`&tableName`), the three fields of a post, or one int
(`&post.ID`). -/
structure Row where
  scanString : Except String String
  scanPost : Except String Post
  scanInt : Except String Int

/-- A statement sent to the server. -/
structure Stmt where
  query : String
  args : List String
deriving DecidableEq

/-- Behaviour of the `*sql.DB` handle over a server with state `σ`.
`Query` fails or delivers the rows that `rows.Next()` steps through;
`QueryRow` always delivers a row, whose `Scan` carries any error. -/
structure DB (σ : Type) where
  Query : Stmt → σ → Except String (List Row) × σ
  QueryRow : Stmt → σ → Row × σ

/-- Connection state: the server state and the statements executed so far. -/
structure Conn (σ : Type) where
  store : σ
  executed : List Stmt

def DB.runQuery {σ : Type} (db : DB σ) (q : String) (c : Conn σ) :
    Except String (List Row) × Conn σ :=
  let st : Stmt := { query := q, args := [] }
  let r := db.Query st c.store
  (r.1, { store := r.2, executed := c.executed ++ [st] })

def DB.runQueryRow {σ : Type} (db : DB σ) (q : String) (args : List String) (c : Conn σ) :
    Row × Conn σ :=
  let st : Stmt := { query := q, args := args }
  let r := db.QueryRow st c.store
  (r.1, { store := r.2, executed := c.executed ++ [st] })

/-- What the handlers are closed over or call into. -/
structure Env (σ : Type) where
  db : DB σ
  /-- Outcome of `json.NewDecoder(r.Body).Decode(&post)` on a request body. -/
  Decode : String → Except String Post
  /-- Error, if any, that `Encode` returns when it writes the given bytes to the
  response writer. -/
  EncodeErr : String → Option String

/-! ## JSON encoding -/

/-- Escape sequence of one character inside a JSON string, as written by an
encoder with HTML escaping on. -/
def escapeRune (c : Char) : List Char :=
  if c = Char.ofNat 92 ∨ c = Char.ofNat 34 then [Char.ofNat 92, c]
  else if c = Char.ofNat 8 then [Char.ofNat 92, 'b']
  else if c = Char.ofNat 12 then [Char.ofNat 92, 'f']
  else if c = Char.ofNat 10 then [Char.ofNat 92, 'n']
  else if c = Char.ofNat 13 then [Char.ofNat 92, 'r']
  else if c = Char.ofNat 9 then [Char.ofNat 92, 't']
  else if c.toNat < 32 ∨ c = '<' ∨ c = '>' ∨ c = '&' then
    [Char.ofNat 92, 'u', '0', '0', Nat.digitChar (c.toNat / 16), Nat.digitChar (c.toNat % 16)]
  else if c = Char.ofNat 8232 then [Char.ofNat 92, 'u', '2', '0', '2', '8']
  else if c = Char.ofNat 8233 then [Char.ofNat 92, 'u', '2', '0', '2', '9']
  else [c]

/-- JSON text of a string value. -/
def marshalString (s : String) : String :=
  "\"" ++ String.mk (s.toList.map escapeRune).flatten ++ "\""

/-- JSON text of a `Post`: the fields in declaration order under their tags. -/
def marshalPost (p : Post) : String :=
  "\x7b\"id\":" ++ toString p.ID ++ ",\"title\":" ++ marshalString p.Title
    ++ ",\"content\":" ++ marshalString p.Content ++ "\x7d"

/-- JSON text of a `[]Post`: a nil slice (`none`) gives `null`, any other slice an array. -/
def marshalPosts : Option (List Post) → String
  | none => "null"
  | some ps => "[" ++ ",".intercalate (ps.map marshalPost) ++ "]"

/-- The call `json.NewEncoder(w).Encode(v)` for a value whose JSON text is `v`: the
writer afterwards and the error returned.  On an error nothing is added to the body. -/
def Encode {σ : Type} (env : Env σ) (w : ResponseWriter) (v : String) :
    ResponseWriter × Option String :=
  let b := v ++ "\n"
  match env.EncodeErr b with
  | some err => (w, some err)
  | none => (w.Write b, none)

/-! ## The handlers -/

def tablesQuery : String :=
  "SELECT table_name FROM information_schema.tables WHERE table_schema='public'"

def postsQuery : String := "SELECT id, title, content FROM posts"

def insertQuery : String :=
  "INSERT INTO posts (title, content) VALUES ($1, $2) RETURNING id"

/-- The loop `for rows.Next()` of the `/` handler and the statement after it. -/
def writeTables : List Row → ResponseWriter → ResponseWriter
  | [], w => w.Write "</ul>"
  | row :: rest, w =>
    match row.scanString with
    | .error err => Error w ("Failed to read row: " ++ err) StatusInternalServerError
    | .ok tableName => writeTables rest (w.Write ("<li>" ++ tableName ++ "</li>"))

/-- The closure registered on `/`. -/
def rootHandler {σ : Type} (env : Env σ) (w : ResponseWriter) (_r : Request) (c : Conn σ) :
    ResponseWriter × Conn σ :=
  match env.db.runQuery tablesQuery c with
  | (.error err, c1) =>
    (Error w ("Failed to query database: " ++ err) StatusInternalServerError, c1)
  | (.ok rows, c1) =>
    (writeTables rows (w.Write "<h1>Public Tables in the Database</h1><ul>"), c1)

/-- The built-in `append(posts, post)` on a `[]Post`, where `none` is the nil slice. -/
def appendPost (posts : Option (List Post)) (post : Post) : Option (List Post) :=
  some (posts.getD [] ++ [post])

/-- The loop `for rows.Next()` of the `/api/posts` handler: the slice after the posts
have been appended to `posts`, or the first `Scan` error. -/
def scanPosts : List Row → Option (List Post) → Except String (Option (List Post))
  | [], posts => .ok posts
  | row :: rest, posts =>
    match row.scanPost with
    | .error err => .error err
    | .ok post => scanPosts rest (appendPost posts post)

/-- The closure registered on `/api/posts`. -/
def postsHandler {σ : Type} (env : Env σ) (w : ResponseWriter) (r : Request) (c : Conn σ) :
    ResponseWriter × Conn σ :=
  if r.Method = MethodGet then
    match env.db.runQuery postsQuery c with
    | (.error err, c1) =>
      (Error w ("Failed to query posts: " ++ err) StatusInternalServerError, c1)
    | (.ok rows, c1) =>
      match scanPosts rows (some []) with
      | .error err =>
        (Error w ("Failed to read post: " ++ err) StatusInternalServerError, c1)
      | .ok posts =>
        let w1 := w.SetHeader "Content-Type" "application/json"
        let w2 := w1.WriteHeader StatusOK
        match Encode env w2 (marshalPosts posts) with
        | (w3, some err) =>
          (Error w3 ("Failed to encode posts: " ++ err) StatusInternalServerError, c1)
        | (w3, none) => (w3, c1)
  else
    (Error w "Invalid request method" StatusMethodNotAllowed, c)

/-- The closure registered on `/api/posts/create`. -/
def createHandler {σ : Type} (env : Env σ) (w : ResponseWriter) (r : Request) (c : Conn σ) :
    ResponseWriter × Conn σ :=
  if r.Method = MethodPost then
    match env.Decode r.Body with
    | .error err => (Error w ("Failed to decode JSON: " ++ err) StatusBadRequest, c)
    | .ok post =>
      match env.db.runQueryRow insertQuery [post.Title, post.Content] c with
      | (row, c1) =>
        match row.scanInt with
        | .error err =>
          (Error w ("Failed to insert post: " ++ err) StatusInternalServerError, c1)
        | .ok id =>
          let post1 : Post := { post with ID := id }
          let w1 := w.SetHeader "Content-Type" "application/json"
          let w2 := w1.WriteHeader StatusCreated
          match Encode env w2 (marshalPost post1) with
          | (w3, some err) =>
            (Error w3 ("Failed to encode post: " ++ err) StatusInternalServerError, c1)
          | (w3, none) => (w3, c1)
  else
    (Error w "Invalid request method" StatusMethodNotAllowed, c)

/-! ## JSON decoding -/

/-- A parsed JSON value; numbers keep their literal text. -/
inductive JValue where
  | null
  | bool (b : Bool)
  | number (lit : List Char)
  | string (s : List Char)
  | array (xs : List JValue)
  | object (kvs : List (List Char × JValue))

def isSpace (c : Char) : Bool :=
  c == ' ' || c == Char.ofNat 9 || c == Char.ofNat 13 || c == Char.ofNat 10

def skipSpace : List Char → List Char
  | [] => []
  | c :: cs => if isSpace c then skipSpace cs else c :: cs

/-- First byte of the UTF-8 encoding of a character: the scanner works on bytes and
stops at this one. -/
def firstByte (c : Char) : Nat :=
  if c.toNat < 128 then c.toNat
  else if c.toNat < 2048 then 192 + c.toNat / 64
  else if c.toNat < 65536 then 224 + c.toNat / 4096
  else 240 + c.toNat / 262144

/-- The text of `strconv.Quote(string(b))` between its quotes, for a byte `b`. -/
def quoteByte (b : Nat) : String :=
  if b = 92 then "\\\\"
  else if b = 7 then "\\a"
  else if b = 8 then "\\b"
  else if b = 12 then "\\f"
  else if b = 10 then "\\n"
  else if b = 13 then "\\r"
  else if b = 9 then "\\t"
  else if b = 11 then "\\v"
  else if b < 32 ∨ b = 127 then
    "\\x" ++ String.singleton (Nat.digitChar (b / 16)) ++ String.singleton (Nat.digitChar (b % 16))
  else String.singleton (Char.ofNat b)

/-- How a syntax error shows the offending byte. -/
def quoteChar (c : Char) : String :=
  if c = Char.ofNat 39 then "'\\''"
  else if c = Char.ofNat 34 then "'\"'"
  else "'" ++ quoteByte (firstByte c) ++ "'"

def syntaxError (c : Char) (context : String) : String :=
  "invalid character " ++ quoteChar c ++ " " ++ context

def unexpectedEOF : String := "unexpected EOF"

/-- Deepest nesting of arrays and objects the scanner accepts. -/
def maxNestingDepth : Nat := 10000

def hexValue (c : Char) : Option Nat :=
  if '0' ≤ c ∧ c ≤ '9' then some (c.toNat - '0'.toNat)
  else if 'a' ≤ c ∧ c ≤ 'f' then some (c.toNat - 'a'.toNat + 10)
  else if 'A' ≤ c ∧ c ≤ 'F' then some (c.toNat - 'A'.toNat + 10)
  else none

/-- The four hex digits after a `\u`: their value and the remaining input. -/
def getu4 : List Char → Except String (Nat × List Char)
  | a :: b :: c :: d :: rest =>
    match hexValue a, hexValue b, hexValue c, hexValue d with
    | some x, some y, some z, some w => .ok (((x * 16 + y) * 16 + z) * 16 + w, rest)
    | none, _, _, _ => .error (syntaxError a "in \\u hexadecimal character escape")
    | _, none, _, _ => .error (syntaxError b "in \\u hexadecimal character escape")
    | _, _, none, _ => .error (syntaxError c "in \\u hexadecimal character escape")
    | _, _, _, none => .error (syntaxError d "in \\u hexadecimal character escape")
  | _ => .error unexpectedEOF

def isSurrogate (n : Nat) : Bool := 0xD800 ≤ n && n < 0xE000

/-- Rune decoded from escapes `\uXXXX` with values `hi`, then `lo`, when they form a pair. -/
def decodePair (hi lo : Nat) : Option Char :=
  if 0xD800 ≤ hi ∧ hi < 0xDC00 ∧ 0xDC00 ≤ lo ∧ lo < 0xE000 then
    some (Char.ofNat ((hi - 0xD800) * 1024 + (lo - 0xDC00) + 0x10000))
  else none

def simpleEscape (c : Char) : Option Char :=
  if c = Char.ofNat 34 ∨ c = Char.ofNat 92 ∨ c = '/' then some c
  else if c = 'b' then some (Char.ofNat 8)
  else if c = 'f' then some (Char.ofNat 12)
  else if c = 'n' then some (Char.ofNat 10)
  else if c = 'r' then some (Char.ofNat 13)
  else if c = 't' then some (Char.ofNat 9)
  else none

/-- A string literal after its opening quote: the decoded text and the remaining input. -/
def scanString : Nat → List Char → List Char → Except String (List Char × List Char)
  | 0, _, _ => .error unexpectedEOF
  | _ + 1, [], _ => .error unexpectedEOF
  | fuel + 1, c :: rest, acc =>
    if c = Char.ofNat 34 then .ok (acc, rest)
    else if c = Char.ofNat 92 then
      match rest with
      | [] => .error unexpectedEOF
      | e :: rest1 =>
        if e = 'u' then
          match getu4 rest1 with
          | .error err => .error err
          | .ok (hi, rest2) =>
            if isSurrogate hi then
              match rest2 with
              | b :: u :: rest3 =>
                if b = Char.ofNat 92 ∧ u = 'u' then
                  match getu4 rest3 with
                  | .error err => .error err
                  | .ok (lo, rest4) =>
                    match decodePair hi lo with
                    | some r => scanString fuel rest4 (acc ++ [r])
                    | none => scanString fuel rest2 (acc ++ [Char.ofNat 0xFFFD])
                else scanString fuel rest2 (acc ++ [Char.ofNat 0xFFFD])
              | _ => scanString fuel rest2 (acc ++ [Char.ofNat 0xFFFD])
            else scanString fuel rest2 (acc ++ [Char.ofNat hi])
        else
          match simpleEscape e with
          | some r => scanString fuel rest1 (acc ++ [r])
          | none => .error (syntaxError e "in string escape code")
    else if c.toNat < 32 then .error (syntaxError c "in string literal")
    else scanString fuel rest (acc ++ [c])

def takeDigits : List Char → List Char × List Char
  | [] => ([], [])
  | c :: cs =>
    if c.isDigit then ((takeDigits cs).1.cons c, (takeDigits cs).2) else ([], c :: cs)

/-- Exponent part of a number whose text so far is `lit`. -/
def scanExponent (lit : List Char) : List Char → Except String (List Char × List Char)
  | e :: rest =>
    if e = 'e' ∨ e = 'E' then
      let signed : List Char × List Char :=
        match rest with
        | s :: rest1 => if s = '+' ∨ s = '-' then ([s], rest1) else ([], rest)
        | [] => ([], rest)
      match takeDigits signed.2 with
      | ([], []) => .error unexpectedEOF
      | ([], c :: _) => .error (syntaxError c "in exponent of numeric literal")
      | (ds, rest2) => .ok (lit ++ [e] ++ signed.1 ++ ds, rest2)
    else .ok (lit, e :: rest)
  | [] => .ok (lit, [])

/-- Fraction and exponent of a number whose integer part is `lit`. -/
def scanFraction (lit : List Char) : List Char → Except String (List Char × List Char)
  | c :: rest =>
    if c = '.' then
      match takeDigits rest with
      | ([], []) => .error unexpectedEOF
      | ([], d :: _) => .error (syntaxError d "after decimal point in numeric literal")
      | (ds, rest1) => scanExponent (lit ++ ['.'] ++ ds) rest1
    else scanExponent lit (c :: rest)
  | [] => .ok (lit, [])

/-- A number literal: its text and the remaining input. -/
def scanNumber (cs : List Char) : Except String (List Char × List Char) :=
  let signed : List Char × List Char :=
    match cs with
    | c :: rest => if c = '-' then (['-'], rest) else ([], cs)
    | [] => ([], cs)
  match signed.2 with
  | [] => .error unexpectedEOF
  | d :: rest =>
    if d = '0' then scanFraction (signed.1 ++ ['0']) rest
    else if d.isDigit then
      scanFraction (signed.1 ++ (takeDigits (d :: rest)).1) (takeDigits (d :: rest)).2
    else .error (syntaxError d "in numeric literal")

/-- The rest of a literal `true`, `false` or `null` after its first letter. -/
def scanLiteral (name : String) : List Char → List Char → Except String (List Char)
  | [], rest => .ok rest
  | _ :: _, [] => .error unexpectedEOF
  | e :: es, c :: rest =>
    if c = e then scanLiteral name es rest
    else .error (syntaxError c ("in literal " ++ name ++ " (expecting " ++ quoteChar e ++ ")"))

mutual

/-- One JSON value, after leading white space, inside `depth` open arrays and objects. -/
def scanValue : Nat → Nat → List Char → Except String (JValue × List Char)
  | 0, _, _ => .error unexpectedEOF
  | fuel + 1, depth, cs =>
    match skipSpace cs with
    | [] => .error unexpectedEOF
    | c :: rest =>
      if c = '\x7b' then
        if maxNestingDepth ≤ depth then .error (syntaxError c "exceeded max depth")
        else
          match skipSpace rest with
          | [] => .error unexpectedEOF
          | d :: rest1 =>
            if d = '\x7d' then .ok (.object [], rest1)
            else scanMembers fuel (depth + 1) (d :: rest1) []
      else if c = '[' then
        if maxNestingDepth ≤ depth then .error (syntaxError c "exceeded max depth")
        else
          match skipSpace rest with
          | [] => .error unexpectedEOF
          | d :: rest1 =>
            if d = ']' then .ok (.array [], rest1)
            else scanElements fuel (depth + 1) (d :: rest1) []
      else if c = Char.ofNat 34 then
        match scanString rest.length.succ rest [] with
        | .error err => .error err
        | .ok (s, rest1) => .ok (.string s, rest1)
      else if c = '-' ∨ c.isDigit then
        match scanNumber (c :: rest) with
        | .error err => .error err
        | .ok (lit, rest1) => .ok (.number lit, rest1)
      else if c = 't' then
        match scanLiteral "true" ['r', 'u', 'e'] rest with
        | .error err => .error err
        | .ok rest1 => .ok (.bool true, rest1)
      else if c = 'f' then
        match scanLiteral "false" ['a', 'l', 's', 'e'] rest with
        | .error err => .error err
        | .ok rest1 => .ok (.bool false, rest1)
      else if c = 'n' then
        match scanLiteral "null" ['u', 'l', 'l'] rest with
        | .error err => .error err
        | .ok rest1 => .ok (.null, rest1)
      else .error (syntaxError c "looking for beginning of value")

/-- The members of an object from a key on, up to the closing brace. -/
def scanMembers : Nat → Nat → List Char → List (List Char × JValue) →
    Except String (JValue × List Char)
  | 0, _, _, _ => .error unexpectedEOF
  | fuel + 1, depth, cs, acc =>
    match skipSpace cs with
    | [] => .error unexpectedEOF
    | q :: rest =>
      if q = Char.ofNat 34 then
        match scanString rest.length.succ rest [] with
        | .error err => .error err
        | .ok (key, rest1) =>
          match skipSpace rest1 with
          | [] => .error unexpectedEOF
          | colon :: rest2 =>
            if colon = ':' then
              match scanValue fuel depth rest2 with
              | .error err => .error err
              | .ok (v, rest3) =>
                match skipSpace rest3 with
                | [] => .error unexpectedEOF
                | sep :: rest4 =>
                  if sep = ',' then scanMembers fuel depth rest4 (acc ++ [(key, v)])
                  else if sep = '\x7d' then .ok (.object (acc ++ [(key, v)]), rest4)
                  else .error (syntaxError sep "after object key:value pair")
            else .error (syntaxError colon "after object key")
      else .error (syntaxError q "looking for beginning of object key string")

/-- The elements of an array from an element on, up to the closing bracket. -/
def scanElements : Nat → Nat → List Char → List JValue →
    Except String (JValue × List Char)
  | 0, _, _, _ => .error unexpectedEOF
  | fuel + 1, depth, cs, acc =>
    match scanValue fuel depth cs with
    | .error err => .error err
    | .ok (v, rest) =>
      match skipSpace rest with
      | [] => .error unexpectedEOF
      | sep :: rest1 =>
        if sep = ',' then scanElements fuel depth rest1 (acc ++ [v])
        else if sep = ']' then .ok (.array (acc ++ [v]), rest1)
        else .error (syntaxError sep "after array element")

end

/-- Name of a value's kind in a type error. -/
def JValue.kind : JValue → String
  | .null => "null"
  | .bool _ => "bool"
  | .number _ => "number"
  | .string _ => "string"
  | .array _ => "array"
  | .object _ => "object"

def digitsValue (ds : List Char) : Nat :=
  ds.foldl (fun n c => n * 10 + (c.toNat - 48)) 0

/-- The function `strconv.ParseInt(lit, 10, 64)` on the text of a JSON number. -/
def parseInt64 (lit : List Char) : Option Int :=
  match lit with
  | [] => none
  | c :: rest =>
    if c = '-' then
      if rest.all Char.isDigit ∧ rest ≠ [] ∧ digitsValue rest ≤ 2 ^ 63 then
        some (-(digitsValue rest : Int))
      else none
    else if lit.all Char.isDigit ∧ digitsValue lit < 2 ^ 63 then some (digitsValue lit : Int)
    else none

/-- Decoding state: the post being filled and the first type error met. -/
structure DecodeState where
  post : Post
  savedError : Option String

def DecodeState.saveError (st : DecodeState) (err : String) : DecodeState :=
  match st.savedError with
  | none => { st with savedError := some err }
  | some _ => st

def typeError (value field type : String) : String :=
  "json: cannot unmarshal " ++ value ++ " into Go struct field Post." ++ field
    ++ " of type " ++ type

/-- Store one object member into the field whose tag equals the key up to letter case;
other keys are skipped, and `null` leaves the field as it is. -/
def storeMember (st : DecodeState) (kv : List Char × JValue) : DecodeState :=
  let name := String.mk (kv.1.map Char.toLower)
  if name = "id" then
    match kv.2 with
    | .null => st
    | .number lit =>
      match parseInt64 lit with
      | some n => { st with post := { st.post with ID := n } }
      | none => st.saveError (typeError ("number " ++ String.mk lit) "id" "int")
    | _ => st.saveError (typeError kv.2.kind "id" "int")
  else if name = "title" then
    match kv.2 with
    | .null => st
    | .string s => { st with post := { st.post with Title := String.mk s } }
    | _ => st.saveError (typeError kv.2.kind "title" "string")
  else if name = "content" then
    match kv.2 with
    | .null => st
    | .string s => { st with post := { st.post with Content := String.mk s } }
    | _ => st.saveError (typeError kv.2.kind "content" "string")
  else st

/-- Unmarshal a value into a zero `Post`. -/
def unmarshalPost (v : JValue) : Except String Post :=
  match v with
  | .null => .ok { ID := 0, Title := "", Content := "" }
  | .object kvs =>
    let st := kvs.foldl storeMember
      { post := { ID := 0, Title := "", Content := "" }, savedError := none }
    match st.savedError with
    | some err => .error err
    | none => .ok st.post
  | _ => .error ("json: cannot unmarshal " ++ v.kind ++ " into Go value of type handler.Post")

/-- The call `json.NewDecoder(r.Body).Decode(&post)` with `post` the zero value: reads the
first JSON value of the body and unmarshals it; what follows the value is not looked at. -/
def decodePost (body : String) : Except String Post :=
  match skipSpace body.toList with
  | [] => .error "EOF"
  | cs =>
    match scanValue cs.length.succ 0 cs with
    | .error err => .error err
    | .ok (v, _) => unmarshalPost v

/-! ## Storage model -/

/-- Modelled from the spec: the persisted schema, "a posts table with at least
columns id (auto-generated primary key), title, content".  The database server is not
part of the repository.  `tables` are the names of the public tables, `posts` the rows
of the posts table in the order a scan returns them, `lastID` the last value the id
sequence handed out. -/
structure Store where
  tables : List String
  posts : List Post
  lastID : Int
deriving DecidableEq

def mismatch : String := "sql: Scan destinations do not match the columns of the row"

/-- A row of the table listing: one text column. -/
def nameRow (name : String) : Row :=
  { scanString := .ok name, scanPost := .error mismatch, scanInt := .error mismatch }

/-- A row of the posts table: the columns id, title, content. -/
def postRow (p : Post) : Row :=
  { scanString := .error mismatch, scanPost := .ok p, scanInt := .error mismatch }

/-- The row of `RETURNING id`. -/
def idRow (id : Int) : Row :=
  { scanString := .error mismatch, scanPost := .error mismatch, scanInt := .ok id }

/-- A `*sql.Row` that carries the error of its query. -/
def errorRow (err : String) : Row :=
  { scanString := .error err, scanPost := .error err, scanInt := .error err }

def undefinedTable : String := "ERROR: relation \"posts\" does not exist (SQLSTATE 42P01)"

def uniqueViolation : String :=
  "ERROR: duplicate key value violates unique constraint \"posts_pkey\" (SQLSTATE 23505)"

def unsupported : String := "ERROR: statement not supported by the storage model"

/-- The two SELECT statements of the handlers on a store. -/
def Store.Query (st : Stmt) (s : Store) : Except String (List Row) × Store :=
  if st = { query := tablesQuery, args := [] } then (.ok (s.tables.map nameRow), s)
  else if st = { query := postsQuery, args := [] } then
    if "posts" ∈ s.tables then (.ok (s.posts.map postRow), s)
    else (.error undefinedTable, s)
  else (.error unsupported, s)

/-- The INSERT of the create handler on a store: the id is the next value of the
sequence, the sequence advances whether or not the row is then accepted, and a row
whose id is already taken is refused by the primary key. -/
def Store.QueryRow (st : Stmt) (s : Store) : Row × Store :=
  match st.args with
  | [title, content] =>
    if st.query = insertQuery then
      if "posts" ∈ s.tables then
        let id := s.lastID + 1
        if id ∈ s.posts.map Post.ID then (errorRow uniqueViolation, { s with lastID := id })
        else
          (idRow id,
            { s with posts := s.posts ++ [{ ID := id, Title := title, Content := content }],
                     lastID := id })
      else (errorRow undefinedTable, s)
    else (errorRow unsupported, s)
  | _ => (errorRow unsupported, s)

/-- The database handle over the storage model. -/
def storeDB : DB Store :=
  { Query := Store.Query, QueryRow := Store.QueryRow }

/-- The handlers' environment over the storage model, with the JSON decoder above;
`refuse` is the error, if any, of the encoder's write. -/
def storeEnv (refuse : String → Option String) : Env Store :=
  { db := storeDB, Decode := decodePost, EncodeErr := refuse }

/-- An encoder whose writes all succeed. -/
def accept : String → Option String := fun _ => none

/-- An encoder whose writes fail because the peer has gone away. -/
def brokenPipe : String → Option String := fun _ => some "write: broken pipe"

/-! ## Sample inputs -/

/-- A schema query that succeeds and delivers one row that cannot be read. -/
def unreadableDB : DB Unit :=
  { Query := fun _ s =>
      (.ok [errorRow "sql: Scan error on column index 0: converting NULL to string is unsupported"], s),
    QueryRow := fun _ s => (errorRow unsupported, s) }

def unreadableEnv : Env Unit :=
  { db := unreadableDB, Decode := decodePost, EncodeErr := accept }

/-- A store with the posts table and two posts in it. -/
def blogStore : Store :=
  { tables := ["posts", "users"],
    posts := [{ ID := 1, Title := "a", Content := "b" },
              { ID := 2, Title := "c", Content := "<d>" }],
    lastID := 2 }

/-- A store whose posts table is empty. -/
def emptyStore : Store := { tables := ["posts"], posts := [], lastID := 0 }

/-- A store without a posts table. -/
def bareStore : Store := { tables := [], posts := [], lastID := 0 }

/-- A connection on which nothing was executed yet. -/
def connect {σ : Type} (s : σ) : Conn σ := { store := s, executed := [] }

def getRoot : Request := { Method := "GET", Path := "/", Body := "" }

def getPosts : Request := { Method := "GET", Path := "/api/posts", Body := "" }

def postPosts : Request := { Method := "POST", Path := "/api/posts", Body := "" }

def getCreate : Request := { Method := "GET", Path := "/api/posts/create", Body := "" }

/-- A create request whose body carries an id of its own. -/
def postHello : Request :=
  { Method := "POST", Path := "/api/posts/create",
    Body := "\x7b\"id\":99,\"title\":\"Hello\",\"content\":\"World\"\x7d" }

def postNotJSON : Request :=
  { Method := "POST", Path := "/api/posts/create", Body := "not json" }

/-! ## Facts about the response writer -/

theorem Error_fresh (msg : String) (code : Nat) :
    Error ResponseWriter.fresh msg code =
      { header := [("Content-Type", "text/plain; charset=utf-8"),
                   ("X-Content-Type-Options", "nosniff")],
        wroteHeader := true, status := code,
        sent := [("Content-Type", "text/plain; charset=utf-8"),
                 ("X-Content-Type-Options", "nosniff")],
        body := msg ++ "\n" } := by
  simp [Error, ResponseWriter.fresh, ResponseWriter.DelHeader, ResponseWriter.SetHeader,
    ResponseWriter.WriteHeader, ResponseWriter.Write, Header.Set, Header.Del]

/-- Once the header is out, `Error` only appends its message to the body. -/
theorem Error_wrote (w : ResponseWriter) (msg : String) (code : Nat)
    (h : w.wroteHeader = true) :
    (Error w msg code).status = w.status ∧ (Error w msg code).sent = w.sent ∧
      (Error w msg code).body = w.body ++ (msg ++ "\n") ∧
      (Error w msg code).wroteHeader = true := by
  simp [Error, ResponseWriter.DelHeader, ResponseWriter.SetHeader,
    ResponseWriter.WriteHeader, ResponseWriter.Write, h]

theorem Write_wrote (w : ResponseWriter) (s : String) (h : w.wroteHeader = true) :
    w.Write s = { w with body := w.body ++ s } := by
  simp [ResponseWriter.Write, h]

theorem Write_fresh (s : String) :
    ResponseWriter.fresh.Write s =
      { header := [], wroteHeader := true, status := StatusOK, sent := [], body := s } := by
  simp [ResponseWriter.Write, ResponseWriter.WriteHeader, ResponseWriter.fresh]

/-- The writer after `w.Header().Set("Content-Type", "application/json")` and
`w.WriteHeader(code)` on a fresh writer. -/
theorem jsonHeader_fresh (code : Nat) :
    (ResponseWriter.fresh.SetHeader "Content-Type" "application/json").WriteHeader code =
      { header := [("Content-Type", "application/json")], wroteHeader := true,
        status := code, sent := [("Content-Type", "application/json")], body := "" } := by
  simp [ResponseWriter.WriteHeader, ResponseWriter.SetHeader, ResponseWriter.fresh,
    Header.Set, Header.Del]

theorem join_append (a b : List String) :
    String.join (a ++ b) = String.join a ++ String.join b := by
  rw [String.join_eq, String.join_eq, String.join_eq]
  apply String.ext
  simp

theorem join_cons (a : String) (b : List String) :
    String.join (a :: b) = a ++ String.join b := by
  have h := join_append [a] b
  simpa [String.join] using h

/-! ## The table listing -/

/-- Once the header is out, the loop of the `/` handler leaves the status line alone,
whatever the rows do. -/
theorem writeTables_status (rows : List Row) (w : ResponseWriter)
    (h : w.wroteHeader = true) : (writeTables rows w).status = w.status := by
  induction rows generalizing w with
  | nil => simp [writeTables, Write_wrote, h]
  | cons row rest ih =>
    unfold writeTables
    cases hrow : row.scanString with
    | error err => exact (Error_wrote w _ _ h).1
    | ok name =>
      simp only
      rw [ih _ (by simp [Write_wrote, h])]
      simp [Write_wrote, h]

/-- When every row scans, the loop writes one list item per row, in order, then the
closing tag. -/
theorem writeTables_body (rows : List Row) (names : List String) (w : ResponseWriter)
    (h : w.wroteHeader = true)
    (hrows : rows.map (fun row => row.scanString) = names.map Except.ok) :
    (writeTables rows w).body =
      w.body ++ String.join (names.map (fun n => "<li>" ++ n ++ "</li>")) ++ "</ul>" := by
  induction rows generalizing w names with
  | nil =>
    cases names with
    | nil => simp [writeTables, Write_wrote, h, String.join]
    | cons n ns => simp at hrows
  | cons row rest ih =>
    cases names with
    | nil => simp at hrows
    | cons n ns =>
      simp only [List.map_cons, List.cons.injEq] at hrows
      unfold writeTables
      rw [hrows.1]
      simp only
      rw [ih ns _ (by simp [Write_wrote, h]) hrows.2, List.map_cons, join_cons]
      simp [Write_wrote, h, String.append_assoc]

/-- After a successful schema query the `/` handler answers with status 200, whether or
not the rows can be read: the heading is written before the first row is scanned. -/
theorem root_status_after_query {σ : Type} (env : Env σ) (r : Request) (c : Conn σ)
    (rows : List Row)
    (hq : (env.db.Query { query := tablesQuery, args := [] } c.store).1 = .ok rows) :
    (rootHandler env ResponseWriter.fresh r c).1.status = StatusOK := by
  simp only [rootHandler, DB.runQuery, hq]
  rw [writeTables_status _ _ (by simp [Write_fresh])]
  simp [Write_fresh]

/-- When the schema query itself fails the `/` handler answers 500 with the error text. -/
theorem root_query_error {σ : Type} (env : Env σ) (r : Request) (c : Conn σ) (err : String)
    (hq : (env.db.Query { query := tablesQuery, args := [] } c.store).1 = .error err) :
    (rootHandler env ResponseWriter.fresh r c).1.status = StatusInternalServerError ∧
      (rootHandler env ResponseWriter.fresh r c).1.body =
        "Failed to query database: " ++ err ++ "\n" := by
  simp [rootHandler, DB.runQuery, hq, Error_fresh]

/-! ## The post listing -/

/-- When every row scans, the loop of the `/api/posts` handler appends the posts in row
order. -/
theorem scanPosts_ok (rows : List Row) (ps acc : List Post)
    (hs : rows.map (fun row => row.scanPost) = ps.map Except.ok) :
    scanPosts rows (some acc) = .ok (some (acc ++ ps)) := by
  induction rows generalizing ps acc with
  | nil =>
    cases ps with
    | nil => simp [scanPosts]
    | cons p ps => simp at hs
  | cons row rest ih =>
    cases ps with
    | nil => simp at hs
    | cons p ps =>
      simp only [List.map_cons, List.cons.injEq] at hs
      unfold scanPosts
      rw [hs.1]
      simp only [appendPost, Option.getD_some]
      rw [ih ps (acc ++ [p]) hs.2]
      simp

/-- The loop stops at the first row that cannot be read. -/
theorem scanPosts_error (rows rest : List Row) (bad : Row) (ps acc : List Post) (err : String)
    (hs : rows.map (fun row => row.scanPost) = ps.map Except.ok)
    (hbad : bad.scanPost = .error err) :
    scanPosts (rows ++ bad :: rest) (some acc) = .error err := by
  induction rows generalizing ps acc with
  | nil => simp [scanPosts, hbad]
  | cons row rows ih =>
    cases ps with
    | nil => simp at hs
    | cons p ps =>
      simp only [List.map_cons, List.cons.injEq] at hs
      simp only [List.cons_append, scanPosts, hs.1, appendPost, Option.getD_some]
      exact ih ps (acc ++ [p]) hs.2

/-- A request to `/api/posts` with another method than GET gets the 405 error and
leaves the connection alone. -/
theorem posts_wrong_method {σ : Type} (env : Env σ) (r : Request) (c : Conn σ)
    (hm : r.Method ≠ MethodGet) :
    postsHandler env ResponseWriter.fresh r c
      = (Error ResponseWriter.fresh "Invalid request method" StatusMethodNotAllowed, c) := by
  simp [postsHandler, hm]

/-- A failing posts query is answered with 500. -/
theorem posts_query_error {σ : Type} (env : Env σ) (r : Request) (c : Conn σ) (err : String)
    (hm : r.Method = MethodGet)
    (hq : (env.db.Query { query := postsQuery, args := [] } c.store).1 = .error err) :
    (postsHandler env ResponseWriter.fresh r c).1.status = StatusInternalServerError ∧
      (postsHandler env ResponseWriter.fresh r c).1.body
        = "Failed to query posts: " ++ err ++ "\n" := by
  simp [postsHandler, hm, DB.runQuery, hq, Error_fresh]

/-- A row of the posts query that cannot be read is answered with 500: nothing has been
written before the loop ends. -/
theorem posts_scan_error {σ : Type} (env : Env σ) (r : Request) (c : Conn σ)
    (rows rest : List Row) (bad : Row) (ps : List Post) (err : String)
    (hm : r.Method = MethodGet)
    (hq : (env.db.Query { query := postsQuery, args := [] } c.store).1
            = .ok (rows ++ bad :: rest))
    (hs : rows.map (fun row => row.scanPost) = ps.map Except.ok)
    (hbad : bad.scanPost = .error err) :
    (postsHandler env ResponseWriter.fresh r c).1.status = StatusInternalServerError ∧
      (postsHandler env ResponseWriter.fresh r c).1.body
        = "Failed to read post: " ++ err ++ "\n" := by
  simp [postsHandler, hm, DB.runQuery, hq, scanPosts_error rows rest bad ps [] err hs hbad,
    Error_fresh]

/-- Once the rows are read the status line 200 is sent before the posts are encoded, so
it stands whatever the encoder reports. -/
theorem posts_status_after_scan {σ : Type} (env : Env σ) (r : Request) (c : Conn σ)
    (rows : List Row) (ps : List Post) (hm : r.Method = MethodGet)
    (hq : (env.db.Query { query := postsQuery, args := [] } c.store).1 = .ok rows)
    (hs : rows.map (fun row => row.scanPost) = ps.map Except.ok) :
    (postsHandler env ResponseWriter.fresh r c).1.status = StatusOK ∧
      (postsHandler env ResponseWriter.fresh r c).1.sent.Get "Content-Type"
        = some "application/json" := by
  have hscan := scanPosts_ok rows ps [] hs
  simp only [List.nil_append] at hscan
  simp only [postsHandler, hm, DB.runQuery, hq, hscan, if_true, Encode, jsonHeader_fresh]
  cases he : env.EncodeErr (marshalPosts (some ps) ++ "\n") with
  | none => simp [ResponseWriter.Write, Header.Get]
  | some err =>
    simp only
    rw [(Error_wrote _ _ _ rfl).1, (Error_wrote _ _ _ rfl).2.1]
    simp [Header.Get]

/-- When the rows are read and the encoder reports no error, the body is the array of
the posts and the encoder's newline. -/
theorem posts_body_after_scan {σ : Type} (env : Env σ) (r : Request) (c : Conn σ)
    (rows : List Row) (ps : List Post) (hm : r.Method = MethodGet)
    (hq : (env.db.Query { query := postsQuery, args := [] } c.store).1 = .ok rows)
    (hs : rows.map (fun row => row.scanPost) = ps.map Except.ok)
    (he : env.EncodeErr ("[" ++ ",".intercalate (ps.map marshalPost) ++ "]" ++ "\n") = none) :
    (postsHandler env ResponseWriter.fresh r c).1.body
      = "[" ++ ",".intercalate (ps.map marshalPost) ++ "]" ++ "\n" := by
  have hscan := scanPosts_ok rows ps [] hs
  simp only [List.nil_append] at hscan
  simp only [postsHandler, hm, DB.runQuery, hq, hscan, if_true, Encode, marshalPosts, he,
    jsonHeader_fresh]
  simp [ResponseWriter.Write]

/-! ## The post creation -/

/-- A request to `/api/posts/create` with another method than POST gets the 405 error
and leaves the connection alone. -/
theorem create_wrong_method {σ : Type} (env : Env σ) (r : Request) (c : Conn σ)
    (hm : r.Method ≠ MethodPost) :
    createHandler env ResponseWriter.fresh r c
      = (Error ResponseWriter.fresh "Invalid request method" StatusMethodNotAllowed, c) := by
  simp [createHandler, hm]

/-- A body that does not decode gets the 400 error and leaves the connection alone. -/
theorem create_decode_error {σ : Type} (env : Env σ) (r : Request) (c : Conn σ)
    (err : String) (hm : r.Method = MethodPost) (hd : env.Decode r.Body = .error err) :
    createHandler env ResponseWriter.fresh r c
      = (Error ResponseWriter.fresh ("Failed to decode JSON: " ++ err) StatusBadRequest, c) := by
  simp [createHandler, hm, hd]

/-- A failing INSERT gets the 500 error. -/
theorem create_insert_failed {σ : Type} (env : Env σ) (r : Request) (c : Conn σ)
    (p : Post) (err : String) (hm : r.Method = MethodPost)
    (hd : env.Decode r.Body = .ok p)
    (hi : (env.db.QueryRow { query := insertQuery, args := [p.Title, p.Content] }
            c.store).1.scanInt = .error err) :
    (createHandler env ResponseWriter.fresh r c).1
      = Error ResponseWriter.fresh ("Failed to insert post: " ++ err)
          StatusInternalServerError := by
  simp [createHandler, hm, hd, DB.runQueryRow, hi]

/-- Once the id is read back the status line 201 is sent before the post is encoded, so
it stands whatever the encoder reports; the INSERT carries the decoded title and
content and nothing else. -/
theorem create_status_after_insert {σ : Type} (env : Env σ) (r : Request) (c : Conn σ)
    (p : Post) (g : Int) (hm : r.Method = MethodPost) (hd : env.Decode r.Body = .ok p)
    (hi : (env.db.QueryRow { query := insertQuery, args := [p.Title, p.Content] }
            c.store).1.scanInt = .ok g) :
    (createHandler env ResponseWriter.fresh r c).1.status = StatusCreated ∧
      (createHandler env ResponseWriter.fresh r c).1.sent.Get "Content-Type"
        = some "application/json" ∧
      (createHandler env ResponseWriter.fresh r c).2.executed
        = c.executed ++ [{ query := insertQuery, args := [p.Title, p.Content] }] := by
  simp only [createHandler, hm, hd, DB.runQueryRow, hi, if_true, Encode, jsonHeader_fresh]
  cases he : env.EncodeErr
      (marshalPost { ID := g, Title := p.Title, Content := p.Content } ++ "\n") with
  | none => simp [ResponseWriter.Write, Header.Get]
  | some err =>
    simp only
    rw [(Error_wrote _ _ _ rfl).1, (Error_wrote _ _ _ rfl).2.1]
    simp [Header.Get]

/-- When the id is read back and the encoder reports no error, the body is the post
with that id and the encoder's newline. -/
theorem create_body_after_insert {σ : Type} (env : Env σ) (r : Request) (c : Conn σ)
    (p : Post) (g : Int) (hm : r.Method = MethodPost) (hd : env.Decode r.Body = .ok p)
    (hi : (env.db.QueryRow { query := insertQuery, args := [p.Title, p.Content] }
            c.store).1.scanInt = .ok g)
    (he : env.EncodeErr
            (marshalPost { ID := g, Title := p.Title, Content := p.Content } ++ "\n")
          = none) :
    (createHandler env ResponseWriter.fresh r c).1.body
      = marshalPost { ID := g, Title := p.Title, Content := p.Content } ++ "\n" := by
  simp only [createHandler, hm, hd, DB.runQueryRow, hi, if_true, Encode, he,
    jsonHeader_fresh]
  simp [ResponseWriter.Write]

/-- After decoding, the create handler leaves the connection as the INSERT left it. -/
theorem create_conn {σ : Type} (env : Env σ) (r : Request) (c : Conn σ) (p : Post)
    (hm : r.Method = MethodPost) (hd : env.Decode r.Body = .ok p) :
    (createHandler env ResponseWriter.fresh r c).2
      = (env.db.runQueryRow insertQuery [p.Title, p.Content] c).2 := by
  simp only [createHandler, hm, hd, if_true]
  cases (env.db.runQueryRow insertQuery [p.Title, p.Content] c).1.scanInt with
  | error err => rfl
  | ok g =>
    simp only [Encode]
    cases env.EncodeErr (marshalPost { ID := g, Title := p.Title, Content := p.Content } ++ "\n")
      <;> rfl

/-! ## The storage model -/

/-- An INSERT that returns an id on the storage model: the posts table exists, the id is
the next value of the sequence and not yet in the table, and the new row is appended. -/
theorem store_insert_ok (s : Store) (title content : String) (g : Int)
    (hi : (Store.QueryRow { query := insertQuery, args := [title, content] } s).1.scanInt
            = .ok g) :
    "posts" ∈ s.tables ∧ g = s.lastID + 1 ∧ g ∉ s.posts.map Post.ID ∧
      (Store.QueryRow { query := insertQuery, args := [title, content] } s).2
        = { s with posts := s.posts ++ [{ ID := g, Title := title, Content := content }],
                   lastID := g } := by
  unfold Store.QueryRow at hi ⊢
  simp only [if_true] at hi ⊢
  by_cases ht : "posts" ∈ s.tables
  · by_cases hid : s.lastID + 1 ∈ s.posts.map Post.ID
    · simp [ht, hid, errorRow] at hi
    · simp only [ht, hid, if_true, if_false, idRow, Except.ok.injEq] at hi ⊢
      subst hi
      exact ⟨trivial, rfl, hid, rfl⟩
  · simp [ht, errorRow] at hi

/-- The posts query on a store with a posts table delivers its rows in order. -/
theorem store_query_posts (s : Store) (ht : "posts" ∈ s.tables) :
    (Store.Query { query := postsQuery, args := [] } s).1 = .ok (s.posts.map postRow) := by
  unfold Store.Query
  rw [if_neg (by decide)]
  simp [ht]

/-! ## The claims -/

/-- C1, amended.  A POST to the create handler whose body decodes to a post with title
`p.Title` and content `p.Content` (whatever `p.ID` is), whose INSERT returns the id `g`
and whose encoder reports no error is answered with status 201 and Content-Type
application/json; the INSERT was sent with that title and content as its only
arguments; and the body is the JSON encoding of the post with id `g` and the decoded
title and content, followed by the encoder's newline.  The id in the body is the one
storage returned: if that is positive and not among the ids `earlier` creates returned,
so is the id in the body. -/
theorem create_returns_post {σ : Type} (env : Env σ) (r : Request) (c : Conn σ)
    (p : Post) (g : Int) (hm : r.Method = MethodPost) (hd : env.Decode r.Body = .ok p)
    (hi : (env.db.QueryRow { query := insertQuery, args := [p.Title, p.Content] }
            c.store).1.scanInt = .ok g)
    (he : env.EncodeErr
            (marshalPost { ID := g, Title := p.Title, Content := p.Content } ++ "\n")
          = none) :
    (createHandler env ResponseWriter.fresh r c).1.status = StatusCreated ∧
      (createHandler env ResponseWriter.fresh r c).1.sent.Get "Content-Type"
        = some "application/json" ∧
      (createHandler env ResponseWriter.fresh r c).2.executed
        = c.executed ++ [{ query := insertQuery, args := [p.Title, p.Content] }] ∧
      (createHandler env ResponseWriter.fresh r c).1.body
        = marshalPost { ID := g, Title := p.Title, Content := p.Content } ++ "\n" ∧
      ∀ earlier : List Int, 0 < g → g ∉ earlier →
        ∃ created : Post,
          (createHandler env ResponseWriter.fresh r c).1.body
            = marshalPost created ++ "\n" ∧
          created.Title = p.Title ∧ created.Content = p.Content ∧
          0 < created.ID ∧ created.ID ∉ earlier := by
  obtain ⟨h1, h2, h3⟩ := create_status_after_insert env r c p g hm hd hi
  have hb := create_body_after_insert env r c p g hm hd hi he
  refine ⟨h1, h2, h3, hb, ?_⟩
  intro earlier hpos hnew
  exact ⟨{ ID := g, Title := p.Title, Content := p.Content }, hb, rfl, rfl, hpos, hnew⟩

/-- C1 on the empty posts table: the body carries id 99, the response carries id 1. -/
theorem create_returns_post_witness :
    (createHandler (storeEnv accept) ResponseWriter.fresh postHello (connect emptyStore)).1.status
        = 201 ∧
      (createHandler (storeEnv accept) ResponseWriter.fresh postHello (connect emptyStore)).1.body
        = "\x7b\"id\":1,\"title\":\"Hello\",\"content\":\"World\"\x7d\n" :=
  have h := create_returns_post (storeEnv accept) postHello (connect emptyStore)
    { ID := 99, Title := "Hello", Content := "World" } 1 rfl rfl rfl rfl
  ⟨h.1, h.2.2.2.1⟩

/-- C1 as stated fails when the encoder reports an error.  The body decodes, the INSERT
returns id 1, yet the body is the error line and not the JSON encoding of the created
post. -/
theorem create_body_encode_refused :
    postHello.Method = MethodPost ∧
    decodePost postHello.Body = .ok { ID := 99, Title := "Hello", Content := "World" } ∧
    (storeDB.QueryRow { query := insertQuery, args := ["Hello", "World"] }
        emptyStore).1.scanInt = .ok 1 ∧
    (createHandler (storeEnv brokenPipe) ResponseWriter.fresh postHello
        (connect emptyStore)).1.body = "Failed to encode post: write: broken pipe\n" ∧
    (createHandler (storeEnv brokenPipe) ResponseWriter.fresh postHello
        (connect emptyStore)).1.body
      ≠ marshalPost { ID := 1, Title := "Hello", Content := "World" } ++ "\n" :=
  ⟨rfl, rfl, rfl, by decide, by decide⟩

/-- C2. Over the storage model, for every store, decoder and pair of requests: if the
create handler answers the first request with 201 and the encoder reports no error,
then the create body is the JSON encoding of a post `created`, and a GET to the list
handler on the connection the create left behind is answered with 200 and a JSON array
of posts that has `created` among its elements. -/
theorem created_post_is_listed (s : Store) (log : List Stmt)
    (decode : String → Except String Post) (refuse : String → Option String)
    (r1 r2 : Request) (hacc : ∀ b, refuse b = none)
    (h201 : (createHandler { db := storeDB, Decode := decode, EncodeErr := refuse }
              ResponseWriter.fresh r1 { store := s, executed := log }).1.status
            = StatusCreated)
    (hget : r2.Method = MethodGet) :
    ∃ (created : Post) (ps : List Post),
      (createHandler { db := storeDB, Decode := decode, EncodeErr := refuse }
          ResponseWriter.fresh r1 { store := s, executed := log }).1.body
        = marshalPost created ++ "\n" ∧
      (postsHandler { db := storeDB, Decode := decode, EncodeErr := refuse }
          ResponseWriter.fresh r2
          (createHandler { db := storeDB, Decode := decode, EncodeErr := refuse }
            ResponseWriter.fresh r1 { store := s, executed := log }).2).1.status
        = StatusOK ∧
      (postsHandler { db := storeDB, Decode := decode, EncodeErr := refuse }
          ResponseWriter.fresh r2
          (createHandler { db := storeDB, Decode := decode, EncodeErr := refuse }
            ResponseWriter.fresh r1 { store := s, executed := log }).2).1.body
        = "[" ++ ",".intercalate (ps.map marshalPost) ++ "]" ++ "\n" ∧
      created ∈ ps := by
  by_cases hm : r1.Method = MethodPost
  swap
  · rw [create_wrong_method _ r1 _ hm, Error_fresh] at h201
    simp [StatusMethodNotAllowed, StatusCreated] at h201
  cases hd : decode r1.Body with
  | error err =>
    rw [create_decode_error { db := storeDB, Decode := decode, EncodeErr := refuse } r1 _ err
      hm hd, Error_fresh] at h201
    simp [StatusBadRequest, StatusCreated] at h201
  | ok p =>
    cases hi : (Store.QueryRow { query := insertQuery, args := [p.Title, p.Content] }
        s).1.scanInt with
    | error err =>
      rw [create_insert_failed { db := storeDB, Decode := decode, EncodeErr := refuse } r1
        { store := s, executed := log } p err hm hd hi, Error_fresh] at h201
      simp [StatusInternalServerError, StatusCreated] at h201
    | ok g =>
      obtain ⟨ht, _, _, hstore⟩ := store_insert_ok s p.Title p.Content g hi
      have hbody := create_body_after_insert
        { db := storeDB, Decode := decode, EncodeErr := refuse } r1
        { store := s, executed := log } p g hm hd hi (hacc _)
      have hconn := create_conn { db := storeDB, Decode := decode, EncodeErr := refuse } r1
        { store := s, executed := log } p hm hd
      refine ⟨{ ID := g, Title := p.Title, Content := p.Content },
        s.posts ++ [{ ID := g, Title := p.Title, Content := p.Content }], hbody, ?_⟩
      rw [hconn]
      have hq : (storeDB.Query { query := postsQuery, args := [] }
          (storeDB.runQueryRow insertQuery [p.Title, p.Content]
            { store := s, executed := log }).2.store).1
          = .ok ((s.posts ++ [(⟨g, p.Title, p.Content⟩ : Post)]).map postRow) := by
        simp only [DB.runQueryRow, storeDB, hstore]
        exact store_query_posts _ ht
      have hs : ((s.posts ++ [(⟨g, p.Title, p.Content⟩ : Post)]).map postRow).map
            (fun row => row.scanPost)
          = (s.posts ++ [(⟨g, p.Title, p.Content⟩ : Post)]).map Except.ok := by
        simp [postRow]
      exact ⟨(posts_status_after_scan _ r2 _ _ _ hget hq hs).1,
        posts_body_after_scan { db := storeDB, Decode := decode, EncodeErr := refuse } r2
          _ _ _ hget hq hs (hacc _),
        by simp⟩

/-- C2 on the sample store: a post is created and then listed. -/
theorem created_post_is_listed_witness :
    (createHandler { db := storeDB, Decode := decodePost, EncodeErr := accept }
        ResponseWriter.fresh postHello { store := blogStore, executed := [] }).1.status
      = StatusCreated ∧
    ∃ (created : Post) (ps : List Post),
      (createHandler { db := storeDB, Decode := decodePost, EncodeErr := accept }
          ResponseWriter.fresh postHello { store := blogStore, executed := [] }).1.body
        = marshalPost created ++ "\n" ∧
      (postsHandler { db := storeDB, Decode := decodePost, EncodeErr := accept }
          ResponseWriter.fresh getPosts
          (createHandler { db := storeDB, Decode := decodePost, EncodeErr := accept }
            ResponseWriter.fresh postHello { store := blogStore, executed := [] }).2).1.status
        = StatusOK ∧
      (postsHandler { db := storeDB, Decode := decodePost, EncodeErr := accept }
          ResponseWriter.fresh getPosts
          (createHandler { db := storeDB, Decode := decodePost, EncodeErr := accept }
            ResponseWriter.fresh postHello { store := blogStore, executed := [] }).2).1.body
        = "[" ++ ",".intercalate (ps.map marshalPost) ++ "]" ++ "\n" ∧
      created ∈ ps :=
  ⟨by decide,
   created_post_is_listed blogStore [] decodePost accept postHello getPosts
    (fun _ => rfl) (by decide) rfl⟩

/-- C3, amended.  A GET to the `/api/posts` handler whose query succeeds, whose rows all
scan, giving the posts `ps` in result order, and whose encoder reports no error is
answered with status 200 and Content-Type application/json, and the body is the JSON
array with one object per row in that order, followed by the encoder's newline; for no
rows that array is `[]`, not `null`. -/
theorem posts_lists_rows {σ : Type} (env : Env σ) (r : Request) (c : Conn σ)
    (rows : List Row) (ps : List Post) (hm : r.Method = MethodGet)
    (hq : (env.db.Query { query := postsQuery, args := [] } c.store).1 = .ok rows)
    (hs : rows.map (fun row => row.scanPost) = ps.map Except.ok)
    (he : env.EncodeErr ("[" ++ ",".intercalate (ps.map marshalPost) ++ "]" ++ "\n") = none) :
    (postsHandler env ResponseWriter.fresh r c).1.status = StatusOK ∧
      (postsHandler env ResponseWriter.fresh r c).1.sent.Get "Content-Type"
        = some "application/json" ∧
      (postsHandler env ResponseWriter.fresh r c).1.body
        = "[" ++ ",".intercalate (ps.map marshalPost) ++ "]" ++ "\n" ∧
      (ps = [] → (postsHandler env ResponseWriter.fresh r c).1.body = "[]\n") := by
  have hb := posts_body_after_scan env r c rows ps hm hq hs he
  refine ⟨(posts_status_after_scan env r c rows ps hm hq hs).1,
    (posts_status_after_scan env r c rows ps hm hq hs).2, hb, ?_⟩
  intro hps
  rw [hb, hps]
  rfl

/-- C3 on the sample store, with two posts, and on the empty posts table. -/
theorem posts_lists_rows_witness :
    (postsHandler (storeEnv accept) ResponseWriter.fresh getPosts (connect blogStore)).1.body
        = "[\x7b\"id\":1,\"title\":\"a\",\"content\":\"b\"\x7d,\x7b\"id\":2,\"title\":\"c\",\"content\":\"\\u003cd\\u003e\"\x7d]\n" ∧
      (postsHandler (storeEnv accept) ResponseWriter.fresh getPosts (connect emptyStore)).1.body
        = "[]\n" :=
  ⟨(posts_lists_rows (storeEnv accept) getPosts (connect blogStore)
      (blogStore.posts.map postRow) blogStore.posts rfl rfl rfl rfl).2.2.1,
   (posts_lists_rows (storeEnv accept) getPosts (connect emptyStore) [] [] rfl rfl rfl
      rfl).2.2.2 rfl⟩

/-- C3 as stated fails when the encoder reports an error.  The posts table is empty, the
query succeeds and there is no row to read, yet the body is the error line and not the
empty array. -/
theorem posts_body_encode_refused :
    getPosts.Method = MethodGet ∧
    (storeDB.Query { query := postsQuery, args := [] } emptyStore).1 = .ok [] ∧
    (postsHandler (storeEnv brokenPipe) ResponseWriter.fresh getPosts
        (connect emptyStore)).1.body = "Failed to encode posts: write: broken pipe\n" ∧
    (postsHandler (storeEnv brokenPipe) ResponseWriter.fresh getPosts
        (connect emptyStore)).1.body ≠ "[]\n" :=
  ⟨rfl, rfl, by decide, by decide⟩

/-- C4. The `/api/posts` handler answers every request whose method is not GET with 405,
and the `/api/posts/create` handler answers every request whose method is not POST with
405; in both cases nothing is sent to the database. -/
theorem wrong_method_not_allowed {σ : Type} (env : Env σ) (r : Request) (c : Conn σ) :
    (r.Method ≠ MethodGet →
        (postsHandler env ResponseWriter.fresh r c).1.status = StatusMethodNotAllowed ∧
        (postsHandler env ResponseWriter.fresh r c).2.executed = c.executed) ∧
      (r.Method ≠ MethodPost →
        (createHandler env ResponseWriter.fresh r c).1.status = StatusMethodNotAllowed ∧
        (createHandler env ResponseWriter.fresh r c).2.executed = c.executed) := by
  constructor
  · intro h
    rw [posts_wrong_method env r c h, Error_fresh]
    exact ⟨rfl, rfl⟩
  · intro h
    rw [create_wrong_method env r c h, Error_fresh]
    exact ⟨rfl, rfl⟩

/-- C4 at a POST to the listing and a GET to the creation. -/
theorem wrong_method_not_allowed_witness :
    (postsHandler (storeEnv accept) ResponseWriter.fresh postPosts
        (connect blogStore)).1.status = 405 ∧
      (createHandler (storeEnv accept) ResponseWriter.fresh getCreate
        (connect blogStore)).1.status = 405 :=
  ⟨((wrong_method_not_allowed (storeEnv accept) postPosts (connect blogStore)).1
      (by decide)).1,
   ((wrong_method_not_allowed (storeEnv accept) getCreate (connect blogStore)).2
      (by decide)).1⟩

/-- C5. A POST to the create handler whose body fails to decode is answered with 400
and the decoder's message, and the connection is left as it was: no statement, so no
INSERT, is executed. -/
theorem create_malformed_bad_request {σ : Type} (env : Env σ) (r : Request) (c : Conn σ)
    (err : String) (hm : r.Method = MethodPost) (hd : env.Decode r.Body = .error err) :
    (createHandler env ResponseWriter.fresh r c).1.status = StatusBadRequest ∧
      (createHandler env ResponseWriter.fresh r c).1.body
        = "Failed to decode JSON: " ++ err ++ "\n" ∧
      (createHandler env ResponseWriter.fresh r c).2.executed = c.executed ∧
      (createHandler env ResponseWriter.fresh r c).2.store = c.store := by
  rw [create_decode_error env r c err hm hd, Error_fresh]
  exact ⟨rfl, rfl, rfl, rfl⟩

/-- C5 at the body `not json`. -/
theorem create_malformed_bad_request_witness :
    (createHandler (storeEnv accept) ResponseWriter.fresh postNotJSON
        (connect blogStore)).1.status = 400 ∧
      (createHandler (storeEnv accept) ResponseWriter.fresh postNotJSON
        (connect blogStore)).2.executed = [] :=
  have h := create_malformed_bad_request (storeEnv accept) postNotJSON (connect blogStore)
    "invalid character 'o' in literal null (expecting 'u')" rfl rfl
  ⟨h.1, h.2.2.1⟩

/-- C6. When the schema query succeeds and every row scans, giving the table names
`names` in result order, the body of the `/` response is the heading and `<ul>`, one
`<li>name</li>` per name in that order, and `</ul>`; the status is 200; and every name
has its `<li>` entry somewhere in the body. -/
theorem root_lists_tables {σ : Type} (env : Env σ) (r : Request) (c : Conn σ)
    (rows : List Row) (names : List String)
    (hq : (env.db.Query { query := tablesQuery, args := [] } c.store).1 = .ok rows)
    (hs : rows.map (fun row => row.scanString) = names.map Except.ok) :
    (rootHandler env ResponseWriter.fresh r c).1.body =
        "<h1>Public Tables in the Database</h1><ul>"
          ++ String.join (names.map (fun n => "<li>" ++ n ++ "</li>")) ++ "</ul>" ∧
      (rootHandler env ResponseWriter.fresh r c).1.status = StatusOK ∧
      ∀ n ∈ names, ∃ pre suf : String,
        (rootHandler env ResponseWriter.fresh r c).1.body
          = pre ++ ("<li>" ++ n ++ "</li>") ++ suf := by
  have hbody : (rootHandler env ResponseWriter.fresh r c).1.body =
      "<h1>Public Tables in the Database</h1><ul>"
        ++ String.join (names.map (fun n => "<li>" ++ n ++ "</li>")) ++ "</ul>" := by
    simp only [rootHandler, DB.runQuery, hq]
    rw [writeTables_body rows names _ (by simp [Write_fresh]) hs]
    simp [Write_fresh]
  refine ⟨hbody, root_status_after_query env r c rows hq, ?_⟩
  intro n hn
  obtain ⟨s, t, rfl⟩ := List.append_of_mem hn
  refine ⟨"<h1>Public Tables in the Database</h1><ul>"
      ++ String.join (s.map (fun n => "<li>" ++ n ++ "</li>")),
    String.join (t.map (fun n => "<li>" ++ n ++ "</li>")) ++ "</ul>", ?_⟩
  rw [hbody, List.map_append, join_append, List.map_cons, join_cons]
  simp [String.append_assoc]

/-- C6 on the sample store with the tables `posts` and `users`. -/
theorem root_lists_tables_witness :
    (rootHandler (storeEnv accept) ResponseWriter.fresh getRoot (connect blogStore)).1.body
      = "<h1>Public Tables in the Database</h1><ul><li>posts</li><li>users</li></ul>" :=
  (root_lists_tables (storeEnv accept) getRoot (connect blogStore)
    [nameRow "posts", nameRow "users"] ["posts", "users"] rfl rfl).1

/-- C7 at a failing row read.  The schema query succeeds and the first row cannot be
read: the `/` handler has already written the heading, so the status line sent is 200
and the error text follows the heading in the body; the status is not 500. -/
theorem root_scan_error_status :
    (rootHandler unreadableEnv ResponseWriter.fresh getRoot (connect ())).1.status = 200 ∧
    (rootHandler unreadableEnv ResponseWriter.fresh getRoot (connect ())).1.status
      ≠ StatusInternalServerError ∧
    (rootHandler unreadableEnv ResponseWriter.fresh getRoot (connect ())).1.body =
      "<h1>Public Tables in the Database</h1><ul>Failed to read row: sql: Scan error on column index 0: converting NULL to string is unsupported\n" := by
  decide

/-- C8 at a failing encoder.  The posts query and the row reads succeed and the encoder
reports an error: status 200 is already sent, the call of `Error` with 500 cannot
change it, and the status is not 500. -/
theorem posts_encode_error_status :
    (postsHandler (storeEnv brokenPipe) ResponseWriter.fresh getPosts
        (connect blogStore)).1.status = 200 ∧
    (postsHandler (storeEnv brokenPipe) ResponseWriter.fresh getPosts
        (connect blogStore)).1.status ≠ StatusInternalServerError ∧
    (postsHandler (storeEnv brokenPipe) ResponseWriter.fresh getPosts
        (connect blogStore)).1.sent = [("Content-Type", "application/json")] ∧
    (postsHandler (storeEnv brokenPipe) ResponseWriter.fresh getPosts
        (connect blogStore)).1.body = "Failed to encode posts: write: broken pipe\n" := by
  decide

/-- C9. A POST to the create handler whose body decodes to `p` and whose INSERT (or the
read of the returned id) fails with error `err` is answered with 500; the body is
exactly the line "Failed to insert post: " followed by the text of `err`, so it contains
that text and no post is written; the headers sent are those of a plain-text error. -/
theorem create_insert_error {σ : Type} (env : Env σ) (r : Request) (c : Conn σ)
    (p : Post) (err : String) (hm : r.Method = MethodPost)
    (hd : env.Decode r.Body = .ok p)
    (hi : (env.db.QueryRow { query := insertQuery, args := [p.Title, p.Content] }
            c.store).1.scanInt = .error err) :
    (createHandler env ResponseWriter.fresh r c).1.status = StatusInternalServerError ∧
      (createHandler env ResponseWriter.fresh r c).1.body
        = "Failed to insert post: " ++ err ++ "\n" ∧
      (∃ pre suf : String,
        (createHandler env ResponseWriter.fresh r c).1.body = pre ++ err ++ suf) ∧
      (createHandler env ResponseWriter.fresh r c).1.sent.Get "Content-Type"
        = some "text/plain; charset=utf-8" := by
  rw [create_insert_failed env r c p err hm hd hi, Error_fresh]
  exact ⟨rfl, rfl, ⟨"Failed to insert post: ", "\n", rfl⟩, by simp [Header.Get]⟩

/-- C9 on a store without a posts table. -/
theorem create_insert_error_witness :
    (createHandler (storeEnv accept) ResponseWriter.fresh postHello
        (connect bareStore)).1.status = 500 ∧
      (createHandler (storeEnv accept) ResponseWriter.fresh postHello
        (connect bareStore)).1.body
        = "Failed to insert post: ERROR: relation \"posts\" does not exist (SQLSTATE 42P01)\n" :=
  have h := create_insert_error (storeEnv accept) postHello (connect bareStore)
    { ID := 99, Title := "Hello", Content := "World" } undefinedTable rfl rfl rfl
  ⟨h.1, h.2.1⟩

/-- C10. The `/` handler gives the same result for any two requests (method, path and
body are never read), sends exactly the schema query to the database, and never answers
405. -/
theorem root_ignores_request {σ : Type} (env : Env σ) (w : ResponseWriter)
    (r r' : Request) (c : Conn σ) :
    rootHandler env w r c = rootHandler env w r' c ∧
      (rootHandler env w r c).2.executed
        = c.executed ++ [{ query := tablesQuery, args := [] }] ∧
      (rootHandler env ResponseWriter.fresh r c).1.status ≠ StatusMethodNotAllowed := by
  refine ⟨rfl, ?_, ?_⟩
  · simp only [rootHandler, DB.runQuery]
    cases (env.db.Query { query := tablesQuery, args := [] } c.store).1 <;> rfl
  · cases hq : (env.db.Query { query := tablesQuery, args := [] } c.store).1 with
    | error err =>
      rw [(root_query_error env r c err hq).1]
      decide
    | ok rows =>
      rw [root_status_after_query env r c rows hq]
      decide

end Handler
